import Mathlib

/-!
Verification development for the Dafny-VSCode language-server core: the
process supervisor, response framer, request dispatcher, readiness gate,
dependency verifier and rename provider.  Program strings are embedded as
`List Char`; JavaScript string primitives (`indexOf`, `substring`) are
modelled with their exact JS semantics, including the clamping and
argument-swapping behaviour of `substring` on negative indices.
-/

/-- Program strings, embedded as lists of characters. -/
abbrev Str := List Char

/-- Whether `pat` is an initial segment of `s` (character-wise comparison). -/
def startsWithStr : Str → Str → Bool
  | [], _ => true
  | _ :: _, [] => false
  | p :: ps, c :: cs => (p == c) && startsWithStr ps cs

/-- Whether `pat` occurs as a contiguous substring of `s`. -/
def hasSub (pat : Str) : Str → Bool
  | [] => startsWithStr pat []
  | c :: t => startsWithStr pat (c :: t) || hasSub pat t

/-- Scan `s` left to right for the first position where `pat` starts,
counting positions from `i`; `none` when `pat` never occurs. -/
def idxAux (pat : Str) : Str → Nat → Option Nat
  | [], i => if startsWithStr pat [] then some i else none
  | c :: t, i => if startsWithStr pat (c :: t) then some i else idxAux pat t (i + 1)

/-- JavaScript `s.indexOf(pat)`: index of the first occurrence, `-1` if absent. -/
def jsIndexOf (s pat : Str) : Int :=
  match idxAux pat s 0 with
  | some i => (i : Int)
  | none => -1

/-- JavaScript `s.indexOf(pat, from)`: search starts at `from` (negative
values are clamped to `0`); `-1` if absent at or after `from`. -/
def jsIndexOfFrom (s pat : Str) (start : Int) : Int :=
  match idxAux pat (s.drop start.toNat) start.toNat with
  | some i => (i : Int)
  | none => -1

/-- JavaScript `s.substring(a, b)`: each argument is clamped to
`[0, s.length]`, then the two are swapped if out of order. -/
def jsSubstring (s : Str) (a b : Int) : Str :=
  let len := s.length
  let a' := min (max a 0).toNat len
  let b' := min (max b 0).toNat len
  let lo := min a' b'
  let hi := max a' b'
  (s.drop lo).take (hi - lo)

/-!  Embedding of `src/server/src/backend/dependencyVerifier.ts`. -/

/-- The `VERSION_STRING` constant of `dependencyVerifier.ts`. -/
def VERSION_STRING : Str := "VERSION:".toList

/-- `DependencyVerifier.parseVersion`: if the buffer contains
`VERSION:`, take `start = outBuf.indexOf(VERSION_STRING)`,
`end = outBuf.indexOf("\n", start)` and return
`outBuf.substring(start + VERSION_STRING.length, end)`; otherwise
`undefined`. -/
def parseVersion (outBuf : Str) : Option Str :=
  if jsIndexOf outBuf VERSION_STRING > -1 then
    let start := jsIndexOf outBuf VERSION_STRING
    let endIdx := jsIndexOfFrom outBuf ("\n".toList) start
    some (jsSubstring outBuf (start + (VERSION_STRING.length : Int)) endIdx)
  else
    none

/-- How the one-shot version-probe promise of `verifyDafnyServer` settles. -/
inductive ProbeOutcome where
  | resolvedVersion (version : Str)
  | rejectedErr (msg : Str)
  | rejectedCode (code : Int)
  deriving DecidableEq

/-- External events observed by `spawnNewProcess`: a spawn-level process
error, an error on the child's stdin, a chunk of standard output arriving
(the `ProcessWrapper` accumulates it into `outBuf` and invokes the data
callback), and process exit with a code. -/
inductive ProbeEvent where
  | procErr (msg : Str)
  | stdinErr (msg : Str)
  | dataArrives (chunk : Str)
  | exited (code : Int)

/-- State of one `verifyDafnyServer` handshake: the accumulated output
buffer, how the promise has settled (if it has; a JS promise settles at
most once, the first `resolve`/`reject` wins), and how many times
`sendQuit` has been invoked. -/
structure ProbeState where
  outBuf : Str
  settled : Option ProbeOutcome
  quitsSent : Nat
  deriving DecidableEq

/-- A fresh handshake: empty buffer, pending promise, no quit sent. -/
def initProbe : ProbeState := ⟨[], none, 0⟩

/-- Settle the promise with `o` unless it already settled (first wins). -/
def settleWith (p : ProbeState) (o : ProbeOutcome) : ProbeState :=
  match p.settled with
  | some _ => p
  | none => { p with settled := some o }

/-- One event of `spawnNewProcess`: `process.on("error", reject)`,
`process.stdin.on("error", reject)`, the data callback (append the chunk,
run `parseVersion` on the whole buffer, and if the result is truthy —
present and non-empty — send quit and resolve), and the exit callback
(`reject(code)` when `code !== 0`). -/
def probeStep (p : ProbeState) : ProbeEvent → ProbeState
  | .procErr m => settleWith p (.rejectedErr m)
  | .stdinErr m => settleWith p (.rejectedErr m)
  | .dataArrives chunk =>
    let buf := p.outBuf ++ chunk
    let p1 := { p with outBuf := buf }
    match parseVersion buf with
    | some v =>
      if v = [] then p1
      else settleWith { p1 with quitsSent := p1.quitsSent + 1 } (.resolvedVersion v)
    | none => p1
  | .exited code => if code ≠ 0 then settleWith p (.rejectedCode code) else p

/-- Run the handshake over a sequence of external events. -/
def runProbe (p : ProbeState) : List ProbeEvent → ProbeState
  | [] => p
  | e :: es => runProbe (probeStep p e) es

/-!  Data model of the verification results (`src/unnamed/part_000`). -/

/-- The `VerificationStatus` enum of the result module. -/
inductive VerificationStatus where
  | Verified
  | NotVerified
  | Failed
  deriving DecidableEq

/-- The `VerificationResult` interface: status, proof-obligation count,
error count, crash flag and optional counter-model payload. -/
structure VerificationResult where
  verificationStatus : VerificationStatus
  proofObligations : Nat
  errorCount : Nat
  crashed : Bool
  counterModel : Option Str
  deriving DecidableEq

/-!  Response framer.

Modelled from the spec: the `ProcessWrapper` accumulation buffer and its
terminator scan are not under `src/`; the spec's Framer contract is
"`feed(chunk)` appends to an accumulation buffer and, each time it is
called, scans the buffer for a terminator.  Returns a `ResponseFrame`
(capturing the buffer content since the previous terminator) when one is
found; otherwise returns more-data-needed.  The buffer is cleared on frame
completion; partial frames survive across calls." -/

/-- Modelled from the spec: the Framer's accumulation buffer
(`ProcessWrapper` is not under `src/`). -/
structure TextFramer where
  buf : Str
  deriving DecidableEq

/-- Modelled from the spec: `feed(chunk)` appends the chunk to the buffer,
scans for the terminator `marker`, and on a hit yields the completed frame
and clears the buffer; otherwise it keeps the partial frame buffered. -/
def feed (marker : Str) (fr : TextFramer) (chunk : Str) : TextFramer × Option Str :=
  let b := fr.buf ++ chunk
  if hasSub marker b then (⟨[]⟩, some b) else (⟨b⟩, none)

/-- Feed a sequence of chunks, collecting the completed frames in order. -/
def feedAll (marker : Str) (fr : TextFramer) : List Str → TextFramer × List Str
  | [] => (fr, [])
  | c :: cs =>
    let step := feed marker fr c
    let rest := feedAll marker step.1 cs
    (rest.1, step.2.toList ++ rest.2)

/-!  Process supervisor and request dispatcher.

Modelled from the spec: `dafnyServer.ts` and the dispatcher are not under
`src/`.  The spec gives: `SupervisorState ∈ {Stopped, Starting, Idle,
Busy, Crashed}`; `submit` enqueues when the supervisor is Idle/Busy and
fails immediately with `NotReady` otherwise; the dispatch loop pops the
oldest request, moves Idle → Busy, encodes and writes it, and on frame
arrival classifies the frame into a `VerificationResult`, resolves the
waiting caller and moves Busy → Idle; a non-zero exit (or a stdin-write
failure, treated identically) while not Stopped moves to Crashed and
resolves the in-flight request with `crashed = true`; `stop()` sends quit
when a process is alive, waits up to a grace period, resolves outstanding
work as crashed, and is an idempotent no-op otherwise. -/

/-- Modelled from the spec: the supervisor's lifecycle states. -/
inductive SupervisorState where
  | Stopped
  | Starting
  | Idle
  | Busy
  | Crashed
  deriving DecidableEq

/-- Modelled from the spec: a verification-style request — the caller it
came from, the protocol verb, and the opaque argument payload (e.g. the
full document text). -/
structure Request where
  caller : Nat
  verb : Str
  payload : Str
  deriving DecidableEq

/-- Modelled from the spec: a completed response frame as the dispatcher
classifies it — success or failure sentinel, plus the proof-obligation and
error counts parsed from the payload (the payload grammar itself is not
given by the spec, so the counts are carried structurally). -/
structure Frame where
  success : Bool
  proofObligations : Nat
  errorCount : Nat
  deriving DecidableEq

/-- Modelled from the spec: the supervisor/dispatcher state — lifecycle
state, FIFO queue of pending requests, the at-most-one in-flight request,
the log of encoded lines written to the backend, the results delivered to
callers (in delivery order), and the callers whose `submit` failed with
`NotReady`. -/
structure Dispatcher where
  state : SupervisorState
  queue : List Request
  inFlight : Option Request
  written : List Str
  delivered : List (Nat × VerificationResult)
  notReadyFailed : List Nat
  deriving DecidableEq

/-- An idle supervisor with no pending or in-flight work. -/
def idleDispatcher : Dispatcher := ⟨.Idle, [], none, [], [], []⟩

/-- Modelled from the spec: the Command Encoder —
`<verb><space><argument-blob>`, the payload passed through unescaped. -/
def encode (verb payload : Str) : Str := verb ++ [' '] ++ payload

/-- Outcome of a `submit` call as seen by its caller. -/
inductive SubmitOutcome where
  | accepted
  | notReady
  deriving DecidableEq

/-- Modelled from the spec: `submit` enqueues at the tail when the
supervisor is Idle or Busy, and fails immediately with `NotReady` when it
is Stopped, Starting or Crashed. -/
def submit (d : Dispatcher) (r : Request) : Dispatcher × SubmitOutcome :=
  if d.state = .Idle ∨ d.state = .Busy then
    ({ d with queue := d.queue ++ [r] }, .accepted)
  else
    ({ d with notReadyFailed := d.notReadyFailed ++ [r.caller] }, .notReady)

/-- Modelled from the spec: one step of the dispatch loop — when Idle with
a non-empty queue, pop the oldest request, encode and write it to the
backend and move to Busy with that request in flight. -/
def dispatchStep (d : Dispatcher) : Dispatcher :=
  match d.state, d.queue with
  | .Idle, r :: rs =>
    { d with
        state := .Busy
        queue := rs
        inFlight := some r
        written := d.written ++ [encode r.verb r.payload] }
  | _, _ => d

/-- Modelled from the spec: classification of a completed frame — a
success frame yields `Verified` when the error count is zero and
`NotVerified` otherwise; a failure frame yields `Failed`; either way the
result is a first-class value with `crashed = false`. -/
def classify (f : Frame) : VerificationResult :=
  if f.success then
    { verificationStatus := if f.errorCount = 0 then .Verified else .NotVerified
      proofObligations := f.proofObligations
      errorCount := f.errorCount
      crashed := false
      counterModel := none }
  else
    { verificationStatus := .Failed
      proofObligations := f.proofObligations
      errorCount := f.errorCount
      crashed := false
      counterModel := none }

/-- Modelled from the spec: frame arrival — when Busy with a request in
flight, classify the frame, deliver the result to that (oldest
outstanding) caller, and move Busy → Idle. -/
def frameArrives (d : Dispatcher) (f : Frame) : Dispatcher :=
  match d.state, d.inFlight with
  | .Busy, some r =>
    { d with
        state := .Idle
        inFlight := none
        delivered := d.delivered ++ [(r.caller, classify f)] }
  | _, _ => d

/-- Modelled from the spec: the result an in-flight request resolves with
when the backend crashes — a first-class result with `crashed = true`. -/
def crashedResult : VerificationResult :=
  { verificationStatus := .Failed
    proofObligations := 0
    errorCount := 0
    crashed := true
    counterModel := none }

/-- Modelled from the spec: the common crash transition — when not
Stopped, resolve any in-flight request with `crashed = true` and move to
Crashed. -/
def crashTransition (d : Dispatcher) : Dispatcher :=
  if d.state = .Stopped then d
  else
    match d.inFlight with
    | some r =>
      { d with
          state := .Crashed
          inFlight := none
          delivered := d.delivered ++ [(r.caller, crashedResult)] }
    | none => { d with state := .Crashed }

/-- Modelled from the spec: the OS reports process exit with `code`; a
non-zero code while not Stopped is a crash, a zero code is a clean exit
handled elsewhere. -/
def exitEvent (d : Dispatcher) (code : Int) : Dispatcher :=
  if code ≠ 0 then crashTransition d else d

/-- Modelled from the spec: a stdin-write failure (broken pipe) is treated
identically to process exit — crash transition. -/
def stdinFailure (d : Dispatcher) : Dispatcher := crashTransition d

/-- Observable actions `stop()` may perform. -/
inductive StopAction where
  | sendQuit
  | waitGrace
  deriving DecidableEq

/-- Whether a live backend process exists (spec: `isRunning()` is true iff
a `BackendProcess` exists and has not reported exit). -/
def isAlive (d : Dispatcher) : Bool :=
  d.state = .Starting ∨ d.state = .Idle ∨ d.state = .Busy

/-- Modelled from the spec: `stop()` — when a process is alive, send the
quit command, wait up to the fixed grace period, resolve any outstanding
request as crashed rather than dropping it, and discard the handle
(Stopped); with no live process it is a no-op that completes without
failing.  Total, so it can never fail. -/
def stop (d : Dispatcher) : Dispatcher × List StopAction :=
  if isAlive d then
    match d.inFlight with
    | some r =>
      ({ d with
           state := .Stopped
           inFlight := none
           delivered := d.delivered ++ [(r.caller, crashedResult)] },
       [.sendQuit, .waitGrace])
    | none => ({ d with state := .Stopped }, [.sendQuit, .waitGrace])
  else (d, [])

/-- Submit a list of requests in order. -/
def submitAll (d : Dispatcher) : List Request → Dispatcher
  | [] => d
  | r :: rs => submitAll (submit d r).1 rs

/-- Run one full round trip per frame: a dispatch step followed by the
arrival of that frame. -/
def roundTrips (d : Dispatcher) : List Frame → Dispatcher
  | [] => d
  | f :: fs => roundTrips (frameArrives (dispatchStep d) f) fs

/-!  Readiness gate, embedded from the `connection.onCodeLens` handler of
the server entry module (`src/unnamed/part_002`, lines 118-133): a bounded
polling loop `while (!(provider && provider.referenceProvider) && tries <
MAX_CONNECTION_RETRIES) { await sleep(2000); tries++; }` followed by a
final readiness check that rejects when it still fails.  The readiness
condition is abstracted as a time-indexed predicate `ready k`, read after
`k` sleeps have elapsed. -/

/-- The `MAX_CONNECTION_RETRIES` constant of the server entry module. -/
def MAX_CONNECTION_RETRIES : Nat := 30

/-- The polling loop: with `fuel` attempts left, check the readiness
condition; on success exit with the sleeps performed and the clock, else
sleep `intervalMs`, count the attempt, and continue.  Returns the number
of sleeps performed and the elapsed milliseconds at loop exit. -/
def gatePoll (intervalMs : Nat) (ready : Nat → Bool) :
    Nat → Nat → Nat → Nat × Nat
  | tries, clockMs, 0 => (tries, clockMs)
  | tries, clockMs, fuel + 1 =>
    if ready tries then (tries, clockMs)
    else gatePoll intervalMs ready (tries + 1) (clockMs + intervalMs) fuel

/-- The readiness gate: run the polling loop from zero tries with
`maxAttempts` fuel, then re-check readiness; report the sleeps performed,
the elapsed milliseconds, and whether the handler proceeds (`true`) or
rejects with the not-ready message, i.e. times out (`false`). -/
def onCodeLensGate (intervalMs maxAttempts : Nat) (ready : Nat → Bool) :
    Nat × Nat × Bool :=
  let r := gatePoll intervalMs ready 0 0 maxAttempts
  (r.1, r.2, ready r.1)

/-- The gate exactly as instantiated in the source: interval 2000 ms,
`MAX_CONNECTION_RETRIES` attempts. -/
def codeLensReadiness (ready : Nat → Bool) : Nat × Nat × Bool :=
  onCodeLensGate 2000 MAX_CONNECTION_RETRIES ready

/-!  Embedding of `src/server/src/backend/features/renameProvider.ts`.

The collaborators it calls (`DocumentDecorator.getWordAtPosition`,
`symbolService.getAllSymbols`, `WorkSpaceRenameHolder.collectRenamings`)
are not under `src/`, so their behaviour is a parameter; the provider's
own promise plumbing is embedded exactly: `provideRenameInternal` runs the
synchronous prologue, then `collectRenamings(...).catch(e => ({}))`, and
`provideRenameEdits` chains `.then(di => di != null ? di : null,
err => null)` on it. -/

/-- A JavaScript `WorkspaceEdit` object: `{}` has no `changes` field;
`collectRenamings` sets `changes`. -/
structure WorkspaceEdit where
  changes : Option (List Str)
  deriving DecidableEq

/-- How a call to a promise-returning collaborator behaves: it resolves,
its promise rejects, or it throws synchronously before any promise
exists. -/
inductive CallBehavior (α : Type) where
  | ok (v : α)
  | rejects (e : Str)
  | throwsSync (e : Str)

/-- How an expression that should yield a promise turns out: a promise
resolved with a value (possibly JS `null`, modelled as `none`), a rejected
promise, or a synchronous exception (no promise was produced at all). -/
inductive JsOutcome (α : Type) where
  | resolvedVal (v : Option α)
  | rejectedWith (e : Str)
  | thrown (e : Str)
  deriving DecidableEq

/-- JavaScript `x.catch(h)` for a non-throwing handler `h`: a rejected
promise resolves with the handler's value; a resolved promise is
unchanged; a synchronous throw happens while evaluating `x`, before
`.catch` is ever attached, so it stays a throw. -/
def jsCatch {α : Type} (o : JsOutcome α) (h : Str → Option α) : JsOutcome α :=
  match o with
  | .rejectedWith e => .resolvedVal (h e)
  | other => other

/-- JavaScript `x.then(onF, onR)` for non-throwing handlers: fulfillment
and rejection are mapped through the handlers; a synchronous throw while
evaluating `x` happens before `.then` is attached and stays a throw. -/
def jsThen2 {α : Type} (o : JsOutcome α) (onF : Option α → Option α)
    (onR : Str → Option α) : JsOutcome α :=
  match o with
  | .resolvedVal v => .resolvedVal (onF v)
  | .rejectedWith e => .resolvedVal (onR e)
  | .thrown e => .thrown e

/-- `DafnyRenameProvider.collectRenamings`: calls
`symbolService.getAllSymbols(document)` and maps the symbols through
`WorkSpaceRenameHolder` (behaviour `renamer`), resolving with a
`WorkspaceEdit` whose `changes` field is set; a synchronous throw in
`getAllSymbols` happens before the `.then` exists. -/
def collectRenamings (renamer : List Str → List Str)
    (symCall : CallBehavior (List Str)) : JsOutcome WorkspaceEdit :=
  match symCall with
  | .throwsSync e => .thrown e
  | .rejects e => .rejectedWith e
  | .ok syms => .resolvedVal (some ⟨some (renamer syms)⟩)

/-- `DafnyRenameProvider.provideRenameInternal`: the synchronous prologue
(`new DocumentDecorator`, `getWordAtPosition`) either throws or yields the
word, then `collectRenamings(...).catch(e => { console.error(e); return
{}; })` — the catch handler resolves with the empty object `{}`. -/
def provideRenameInternal (renamer : List Str → List Str)
    (wordCall : Except Str Str) (symCall : CallBehavior (List Str)) :
    JsOutcome WorkspaceEdit :=
  match wordCall with
  | .error e => .thrown e
  | .ok _ => jsCatch (collectRenamings renamer symCall) (fun _ => some ⟨none⟩)

/-- `DafnyRenameProvider.provideRenameEdits`: chains
`.then(definitionInfo => definitionInfo != null ? definitionInfo : null,
err => { console.error(err); return null; })` onto
`provideRenameInternal`. -/
def provideRenameEdits (renamer : List Str → List Str)
    (wordCall : Except Str Str) (symCall : CallBehavior (List Str)) :
    JsOutcome WorkspaceEdit :=
  jsThen2 (provideRenameInternal renamer wordCall symCall)
    (fun di => match di with | some d => some d | none => none)
    (fun _ => none)

/-!  Lemmas about the string scan primitives. -/

/-- A string starts with itself followed by anything. -/
theorem startsWithStr_append (p t : Str) : startsWithStr p (p ++ t) = true := by
  induction p with
  | nil => rfl
  | cons c ps ih => simp [startsWithStr, ih]

/-- When the pattern starts right here, the scan reports the current index. -/
theorem idxAux_of_starts {pat s : Str} (i : Nat) (h : startsWithStr pat s = true) :
    idxAux pat s i = some i := by
  cases s <;> simp [idxAux, h]

/-- When the pattern starts nowhere inside the first `a.length` positions,
the scan skips over `a`. -/
theorem idxAux_shift (pat : Str) :
    ∀ (a s : Str) (i : Nat),
      (∀ k, k < a.length → startsWithStr pat ((a ++ s).drop k) = false) →
      idxAux pat (a ++ s) i = idxAux pat s (i + a.length) := by
  intro a
  induction a with
  | nil => intro s i _; simp
  | cons c a' ih =>
    intro s i h
    have h0 : startsWithStr pat (c :: (a' ++ s)) = false := by
      have := h 0 (Nat.succ_pos _)
      simpa using this
    have hrest : ∀ k, k < a'.length → startsWithStr pat ((a' ++ s).drop k) = false := by
      intro k hk
      have := h (k + 1) (by simpa using Nat.succ_lt_succ hk)
      simpa using this
    calc idxAux pat (c :: a' ++ s) i
        = idxAux pat (a' ++ s) (i + 1) := by simp [idxAux, h0]
      _ = idxAux pat s (i + 1 + a'.length) := ih s (i + 1) hrest
      _ = idxAux pat s (i + (c :: a').length) := by
            have heq : i + 1 + a'.length = i + (c :: a').length := by
              simp only [List.length_cons]; omega
            rw [heq]

/-- Scanning for a single character that does not occur: no hit. -/
theorem idxAux_single_none (c : Char) :
    ∀ (s : Str) (i : Nat), c ∉ s → idxAux [c] s i = none := by
  intro s
  induction s with
  | nil => intro i _; simp [idxAux, startsWithStr]
  | cons d t ih =>
    intro i h
    have hcd : (c == d) = false := by
      simp only [List.mem_cons, not_or] at h
      simp [beq_eq_false_iff_ne, h.1]
    simp [idxAux, startsWithStr, hcd,
      ih (i + 1) (by simp only [List.mem_cons, not_or] at h; exact h.2)]

/-- Scanning for a single character finds its first occurrence. -/
theorem idxAux_single_found (c : Char) :
    ∀ (x y : Str) (i : Nat), c ∉ x →
      idxAux [c] (x ++ c :: y) i = some (i + x.length) := by
  intro x
  induction x with
  | nil => intro y i _; simp [idxAux, startsWithStr]
  | cons d x' ih =>
    intro y i h
    have hcd : (c == d) = false := by
      simp only [List.mem_cons, not_or] at h
      simp [beq_eq_false_iff_ne, h.1]
    have h2 : c ∉ x' := by simp only [List.mem_cons, not_or] at h; exact h.2
    have := ih y (i + 1) h2
    simp [idxAux, startsWithStr, hcd, this]
    ring

/-- Length of the `VERSION:` marker. -/
theorem VERSION_STRING_length : VERSION_STRING.length = 8 := rfl

/-- JS `substring` with ordered in-range arguments cuts out the middle. -/
theorem jsSubstring_of_le (s : Str) (a b : Nat) (hab : a ≤ b) (hb : b ≤ s.length) :
    jsSubstring s (a : Int) (b : Int) = (s.drop a).take (b - a) := by
  simp only [jsSubstring]
  have h1 : (max (a : Int) 0).toNat = a := by omega
  have h2 : (max (b : Int) 0).toNat = b := by omega
  rw [h1, h2, min_eq_left (le_trans hab hb), min_eq_left hb,
    min_eq_left hab, max_eq_right hab]

/-- JS `substring` with a `-1` second argument clamps it to `0`, swaps the
arguments, and so yields the prefix of the given length. -/
theorem jsSubstring_neg_one (s : Str) (a : Nat) (ha : a ≤ s.length) :
    jsSubstring s (a : Int) (-1) = s.take a := by
  simp only [jsSubstring]
  have h1 : (max (a : Int) 0).toNat = a := by omega
  have h2 : (max (-1 : Int) 0).toNat = 0 := by omega
  rw [h1, h2, min_eq_left ha]
  simp

/-- The newline character does not occur in the `VERSION:` marker. -/
theorem nl_not_mem_VERSION : ('\n' : Char) ∉ VERSION_STRING := by decide

/-- What `parseVersion` computes on a buffer whose first `VERSION:` marker
sits after `a` and is followed by the newline-free text `v`, a newline,
and anything: exactly `v`. -/
theorem parseVersion_extracts (a v rest : Str)
    (hfirst : ∀ k, k < a.length →
      startsWithStr VERSION_STRING
        ((a ++ (VERSION_STRING ++ (v ++ '\n' :: rest))).drop k) = false)
    (hv : ('\n' : Char) ∉ v) :
    parseVersion (a ++ (VERSION_STRING ++ (v ++ '\n' :: rest))) = some v := by
  have hidx : idxAux VERSION_STRING (a ++ (VERSION_STRING ++ (v ++ '\n' :: rest))) 0
      = some a.length := by
    rw [idxAux_shift VERSION_STRING a _ 0 hfirst,
      idxAux_of_starts (0 + a.length) (startsWithStr_append VERSION_STRING _)]
    simp
  have hjs : jsIndexOf (a ++ (VERSION_STRING ++ (v ++ '\n' :: rest))) VERSION_STRING
      = (a.length : Int) := by
    simp [jsIndexOf, hidx]
  have hdrop : (a ++ (VERSION_STRING ++ (v ++ '\n' :: rest))).drop a.length
      = VERSION_STRING ++ (v ++ '\n' :: rest) := List.drop_left a _
  have hnl : jsIndexOfFrom (a ++ (VERSION_STRING ++ (v ++ '\n' :: rest))) ("\n".toList)
      ((a.length : Int)) = ((a.length + (8 + v.length) : Nat) : Int) := by
    have h1 : ("\n".toList : Str) = ['\n'] := rfl
    have ht : ((a.length : Int)).toNat = a.length := by omega
    have h2 : VERSION_STRING ++ (v ++ '\n' :: rest)
        = (VERSION_STRING ++ v) ++ '\n' :: rest := by
      simp [List.append_assoc]
    have h3 : idxAux ['\n'] ((VERSION_STRING ++ v) ++ '\n' :: rest) a.length
        = some (a.length + (VERSION_STRING ++ v).length) := by
      apply idxAux_single_found
      simp only [List.mem_append, not_or]
      exact ⟨nl_not_mem_VERSION, hv⟩
    rw [jsIndexOfFrom, h1, ht, hdrop, h2, h3]
    simp [VERSION_STRING_length]
  rw [parseVersion]
  simp only [hjs, hnl]
  have hpos : ((a.length : Int)) > -1 := by omega
  rw [if_pos hpos]
  have hbuf : a ++ (VERSION_STRING ++ (v ++ '\n' :: rest))
      = (a ++ VERSION_STRING) ++ (v ++ ('\n' :: rest)) := by
    simp [List.append_assoc]
  have harg : ((a.length : Int)) + ((VERSION_STRING.length : Nat) : Int)
      = (((a ++ VERSION_STRING).length : Nat) : Int) := by
    simp
  rw [harg, hbuf]
  have hle1 : (a ++ VERSION_STRING).length ≤ a.length + (8 + v.length) := by
    simp [VERSION_STRING_length]
  have hle2 : a.length + (8 + v.length) ≤ ((a ++ VERSION_STRING) ++ (v ++ ('\n' :: rest))).length := by
    simp [VERSION_STRING_length]
  rw [jsSubstring_of_le _ _ _ hle1 hle2]
  rw [List.drop_left]
  have hcut : a.length + (8 + v.length) - (a ++ VERSION_STRING).length = v.length := by
    simp [VERSION_STRING_length]
    omega
  rw [hcut, List.take_left]

/-- What `parseVersion` computes when the buffer holds the marker (first
occurrence after `a`) but no newline at or after it: the whole prefix up
to and including the marker. -/
theorem parseVersion_no_newline (a rest : Str)
    (hfirst : ∀ k, k < a.length →
      startsWithStr VERSION_STRING ((a ++ (VERSION_STRING ++ rest)).drop k) = false)
    (hrest : ('\n' : Char) ∉ rest) :
    parseVersion (a ++ (VERSION_STRING ++ rest)) = some (a ++ VERSION_STRING) := by
  have hidx : idxAux VERSION_STRING (a ++ (VERSION_STRING ++ rest)) 0 = some a.length := by
    rw [idxAux_shift VERSION_STRING a _ 0 hfirst,
      idxAux_of_starts (0 + a.length) (startsWithStr_append VERSION_STRING _)]
    simp
  have hjs : jsIndexOf (a ++ (VERSION_STRING ++ rest)) VERSION_STRING
      = (a.length : Int) := by
    simp [jsIndexOf, hidx]
  have hdrop : (a ++ (VERSION_STRING ++ rest)).drop a.length = VERSION_STRING ++ rest :=
    List.drop_left a _
  have hnl : jsIndexOfFrom (a ++ (VERSION_STRING ++ rest)) ("\n".toList)
      ((a.length : Int)) = -1 := by
    have h1 : ("\n".toList : Str) = ['\n'] := rfl
    have ht : ((a.length : Int)).toNat = a.length := by omega
    have h3 : idxAux ['\n'] (VERSION_STRING ++ rest) a.length = none := by
      apply idxAux_single_none
      simp only [List.mem_append, not_or]
      exact ⟨nl_not_mem_VERSION, hrest⟩
    rw [jsIndexOfFrom, h1, ht, hdrop, h3]
  rw [parseVersion]
  simp only [hjs, hnl]
  have hpos : ((a.length : Int)) > -1 := by omega
  rw [if_pos hpos]
  have hbuf : a ++ (VERSION_STRING ++ rest) = (a ++ VERSION_STRING) ++ rest := by
    simp [List.append_assoc]
  have harg : ((a.length : Int)) + ((VERSION_STRING.length : Nat) : Int)
      = (((a ++ VERSION_STRING).length : Nat) : Int) := by
    simp
  rw [harg, hbuf]
  have hle : (a ++ VERSION_STRING).length ≤ ((a ++ VERSION_STRING) ++ rest).length := by
    simp
  rw [jsSubstring_neg_one _ _ hle, List.take_left]

/-!  Lemmas about the readiness gate. -/

/-- When readiness never holds, the polling loop burns all its fuel, one
sleep of `intervalMs` per attempt. -/
theorem gatePoll_never (intervalMs : Nat) (ready : Nat → Bool)
    (h : ∀ k, ready k = false) :
    ∀ (fuel tries clockMs : Nat),
      gatePoll intervalMs ready tries clockMs fuel
        = (tries + fuel, clockMs + fuel * intervalMs) := by
  intro fuel
  induction fuel with
  | zero => intro tries clockMs; simp [gatePoll]
  | succ n ih =>
    intro tries clockMs
    rw [gatePoll, h tries]
    simp only [Bool.false_eq_true, if_false, ih]
    have h1 : tries + 1 + n = tries + (n + 1) := by omega
    have h2 : clockMs + intervalMs + n * intervalMs
        = clockMs + (n + 1) * intervalMs := by ring
    rw [h1, h2]

/-- When readiness first holds after `k` sleeps and the loop has fuel to
get there, it stops right there. -/
theorem gatePoll_first (intervalMs : Nat) (ready : Nat → Bool) (k : Nat)
    (hbefore : ∀ j, j < k → ready j = false) (hk : ready k = true) :
    ∀ (fuel tries clockMs : Nat), tries ≤ k → k ≤ tries + fuel →
      gatePoll intervalMs ready tries clockMs fuel
        = (k, clockMs + (k - tries) * intervalMs) := by
  intro fuel
  induction fuel with
  | zero =>
    intro tries clockMs h1 h2
    have : tries = k := by omega
    subst this
    simp [gatePoll]
  | succ n ih =>
    intro tries clockMs h1 h2
    rw [gatePoll]
    by_cases htk : tries = k
    · subst htk
      rw [hk]
      simp
    · have hlt : tries < k := by omega
      rw [hbefore tries hlt]
      simp only [Bool.false_eq_true, if_false]
      rw [ih (tries + 1) (clockMs + intervalMs) (by omega) (by omega)]
      have : clockMs + intervalMs + (k - (tries + 1)) * intervalMs
          = clockMs + (k - tries) * intervalMs := by
        have hsub : k - tries = (k - (tries + 1)) + 1 := by omega
        rw [hsub]
        ring
      rw [this]

/-!  Lemmas about the version-probe promise. -/

/-- A settled promise stays settled with the same outcome through any
further event. -/
theorem probeStep_settled (p : ProbeState) (e : ProbeEvent) (o : ProbeOutcome)
    (h : p.settled = some o) : (probeStep p e).settled = some o := by
  cases e with
  | procErr m => simp [probeStep, settleWith, h]
  | stdinErr m => simp [probeStep, settleWith, h]
  | dataArrives chunk =>
    rw [probeStep]
    cases parseVersion (p.outBuf ++ chunk) with
    | none => simpa using h
    | some v =>
      by_cases hv : v = []
      · simp [hv, h]
      · simp [hv, settleWith, h]
  | exited code =>
    by_cases hc : code = 0
    · simp [probeStep, hc, h]
    · simp [probeStep, hc, settleWith, h]

/-- A settled promise stays settled through any further event sequence. -/
theorem runProbe_settled (es : List ProbeEvent) :
    ∀ (p : ProbeState) (o : ProbeOutcome), p.settled = some o →
      (runProbe p es).settled = some o := by
  induction es with
  | nil => intro p o h; simpa [runProbe] using h
  | cons e es ih =>
    intro p o h
    rw [runProbe]
    exact ih _ o (probeStep_settled p e o h)

/-!  Lemmas about the dispatcher. -/

/-- Submitting to an Idle supervisor only appends to the queue. -/
theorem submitAll_idle (reqs : List Request) :
    ∀ (d : Dispatcher), d.state = .Idle →
      submitAll d reqs = { d with queue := d.queue ++ reqs } := by
  induction reqs with
  | nil => intro d _; simp [submitAll]
  | cons r rs ih =>
    intro d hd
    rw [submitAll, submit]
    rw [if_pos (Or.inl hd)]
    rw [ih { d with queue := d.queue ++ [r] } hd]
    simp

/-- The dispatch loop delivers one classified result per round trip,
pairing the oldest pending request with the arriving frame, in order. -/
theorem roundTrips_delivered :
    ∀ (frames : List Frame) (reqs : List Request) (d : Dispatcher),
      d.state = .Idle → d.inFlight = none → d.queue = reqs →
      frames.length = reqs.length →
      (roundTrips d frames).delivered
        = d.delivered ++ List.zipWith (fun r f => (r.caller, classify f)) reqs frames := by
  intro frames
  induction frames with
  | nil =>
    intro reqs d _ _ _ hlen
    have : reqs = [] := by
      cases reqs with
      | nil => rfl
      | cons r rs => simp at hlen
    subst this
    simp [roundTrips]
  | cons f fs ih =>
    intro reqs d hst hin hq hlen
    cases reqs with
    | nil => simp at hlen
    | cons r rs =>
      obtain ⟨st, q, infl, w, del, nf⟩ := d
      simp only at hst hin hq
      subst hst; subst hin; subst hq
      rw [roundTrips]
      have hdisp : dispatchStep ⟨.Idle, r :: rs, none, w, del, nf⟩
          = ⟨.Busy, rs, some r, w ++ [encode r.verb r.payload], del, nf⟩ := by
        rw [dispatchStep]
      have harr : frameArrives ⟨.Busy, rs, some r, w ++ [encode r.verb r.payload], del, nf⟩ f
          = ⟨.Idle, rs, none, w ++ [encode r.verb r.payload],
             del ++ [(r.caller, classify f)], nf⟩ := by
        rw [frameArrives]
      rw [hdisp, harr]
      rw [ih rs _ rfl rfl rfl (by simpa using hlen)]
      simp [List.zipWith]

/-!  Claim theorems. -/

/-- C1: for every sequence of N verification requests submitted while the
backend is Idle, the dispatcher delivers the N results to their callers in
exactly the order the requests were submitted — frame i is matched to
request i (oldest outstanding first) — and exactly N results are produced
for N successful round trips. -/
theorem c1_fifo_delivery (reqs : List Request) (frames : List Frame)
    (hlen : frames.length = reqs.length) :
    (roundTrips (submitAll idleDispatcher reqs) frames).delivered
      = List.zipWith (fun r f => (r.caller, classify f)) reqs frames ∧
    (roundTrips (submitAll idleDispatcher reqs) frames).delivered.length
      = reqs.length := by
  have hsub : submitAll idleDispatcher reqs
      = { idleDispatcher with queue := reqs } := by
    rw [submitAll_idle reqs idleDispatcher rfl]
    simp [idleDispatcher]
  have h := roundTrips_delivered frames reqs
    { idleDispatcher with queue := reqs } rfl rfl rfl hlen
  rw [hsub, h]
  refine ⟨by simp [idleDispatcher], ?_⟩
  simp [idleDispatcher, List.length_zipWith, hlen]

/-- Witness for C1: two requests, two success frames, delivered in
submission order with exactly two results. -/
theorem c1_fifo_delivery_witness :
    (roundTrips (submitAll idleDispatcher
        [⟨1, "verify".toList, "A".toList⟩, ⟨2, "verify".toList, "B".toList⟩])
        [⟨true, 3, 0⟩, ⟨true, 1, 2⟩]).delivered
      = List.zipWith (fun (r : Request) (f : Frame) => (r.caller, classify f))
          [⟨1, "verify".toList, "A".toList⟩, ⟨2, "verify".toList, "B".toList⟩]
          [⟨true, 3, 0⟩, ⟨true, 1, 2⟩] ∧
    (roundTrips (submitAll idleDispatcher
        [⟨1, "verify".toList, "A".toList⟩, ⟨2, "verify".toList, "B".toList⟩])
        [⟨true, 3, 0⟩, ⟨true, 1, 2⟩]).delivered.length
      = ([⟨1, "verify".toList, "A".toList⟩,
          ⟨2, "verify".toList, "B".toList⟩] : List Request).length :=
  c1_fifo_delivery
    [⟨1, "verify".toList, "A".toList⟩, ⟨2, "verify".toList, "B".toList⟩]
    [⟨true, 3, 0⟩, ⟨true, 1, 2⟩] rfl

/-- C2: the readiness gate returns success as soon as the readiness
condition holds (after the minimal number of polls), and when the
condition never holds it performs exactly `maxAttempts` polls of
`intervalMs` milliseconds each and then fails; the source instantiates it
with interval 2000 ms and `MAX_CONNECTION_RETRIES = 30` attempts. -/
theorem c2_readiness_gate :
    (∀ (intervalMs maxAttempts : Nat) (ready : Nat → Bool),
        (∀ k, ready k = false) →
        onCodeLensGate intervalMs maxAttempts ready
          = (maxAttempts, maxAttempts * intervalMs, false)) ∧
    (∀ (intervalMs maxAttempts k : Nat) (ready : Nat → Bool),
        k ≤ maxAttempts → (∀ j, j < k → ready j = false) → ready k = true →
        onCodeLensGate intervalMs maxAttempts ready
          = (k, k * intervalMs, true)) ∧
    MAX_CONNECTION_RETRIES = 30 ∧
    (∀ ready, codeLensReadiness ready = onCodeLensGate 2000 30 ready) := by
  refine ⟨?_, ?_, rfl, fun ready => rfl⟩
  · intro intervalMs maxAttempts ready h
    rw [onCodeLensGate, gatePoll_never intervalMs ready h maxAttempts 0 0]
    simp [h]
  · intro intervalMs maxAttempts k ready hk hbefore hready
    rw [onCodeLensGate,
      gatePoll_first intervalMs ready k hbefore hready maxAttempts 0 0
        (Nat.zero_le k) (by omega)]
    simp [hready]

/-- Witness for C2: a never-ready provider under a 3-attempt gate times
out after exactly 3 polls of 2000 ms. -/
theorem c2_readiness_gate_witness :
    onCodeLensGate 2000 3 (fun _ => false) = (3, 3 * 2000, false) :=
  c2_readiness_gate.1 2000 3 (fun _ => false) (fun _ => rfl)

/-- C4: a terminator split across two feed calls yields exactly one
completed frame — the partial frame survives in the buffer across the
first call, and the buffer is cleared on completion. -/
theorem c4_split_marker (marker a b : Str)
    (h1 : hasSub marker a = false) (h2 : hasSub marker (a ++ b) = true) :
    feedAll marker ⟨[]⟩ [a, b] = (⟨[]⟩, [a ++ b]) := by
  simp [feedAll, feed, h1, h2]

/-- Witness for C4: the success marker split as `"SUCC"` then
`"ESS-MARKER\n"` produces exactly one frame. -/
theorem c4_split_marker_witness :
    feedAll ("SUCCESS-MARKER".toList) ⟨[]⟩ ["SUCC".toList, "ESS-MARKER\n".toList]
      = (⟨[]⟩, ["SUCC".toList ++ "ESS-MARKER\n".toList]) :=
  c4_split_marker ("SUCCESS-MARKER".toList) ("SUCC".toList) ("ESS-MARKER\n".toList)
    (by decide) (by decide)

/-- C5: when the backend exits with a non-zero code (or a stdin write
fails) while a request is outstanding, that request resolves with a
result whose `crashed` field is true (a first-class result, not a thrown
fault), the supervisor state becomes Crashed, and a subsequent `submit`
before a restart fails immediately with `NotReady`. -/
theorem c5_crash_handling (r r2 : Request) (code : Int) (hc : code ≠ 0) :
    (exitEvent (dispatchStep (submit idleDispatcher r).1) code).delivered
      = [(r.caller, crashedResult)] ∧
    crashedResult.crashed = true ∧
    (exitEvent (dispatchStep (submit idleDispatcher r).1) code).state
      = .Crashed ∧
    (submit (exitEvent (dispatchStep (submit idleDispatcher r).1) code) r2).2
      = .notReady ∧
    (stdinFailure (dispatchStep (submit idleDispatcher r).1)).delivered
      = [(r.caller, crashedResult)] ∧
    (stdinFailure (dispatchStep (submit idleDispatcher r).1)).state
      = .Crashed := by
  have hbusy : dispatchStep (submit idleDispatcher r).1
      = ⟨.Busy, [], some r, [encode r.verb r.payload], [], []⟩ := rfl
  have hcrash : crashTransition ⟨.Busy, [], some r, [encode r.verb r.payload], [], []⟩
      = ⟨.Crashed, [], none, [encode r.verb r.payload],
         [(r.caller, crashedResult)], []⟩ := by
    rw [crashTransition]
    simp
  rw [hbusy, exitEvent, if_pos hc, stdinFailure, hcrash]
  refine ⟨rfl, rfl, rfl, ?_, rfl, rfl⟩
  rw [submit]
  simp

/-- Witness for C5: a concrete request crashed by exit code 1. -/
theorem c5_crash_handling_witness :
    (exitEvent (dispatchStep
        (submit idleDispatcher ⟨1, "verify".toList, "A".toList⟩).1) 1).delivered
      = [(1, crashedResult)] ∧
    crashedResult.crashed = true ∧
    (exitEvent (dispatchStep
        (submit idleDispatcher ⟨1, "verify".toList, "A".toList⟩).1) 1).state
      = .Crashed ∧
    (submit (exitEvent (dispatchStep
        (submit idleDispatcher ⟨1, "verify".toList, "A".toList⟩).1) 1)
        ⟨2, "verify".toList, "B".toList⟩).2 = .notReady ∧
    (stdinFailure (dispatchStep
        (submit idleDispatcher ⟨1, "verify".toList, "A".toList⟩).1)).delivered
      = [(1, crashedResult)] ∧
    (stdinFailure (dispatchStep
        (submit idleDispatcher ⟨1, "verify".toList, "A".toList⟩).1)).state
      = .Crashed :=
  c5_crash_handling ⟨1, "verify".toList, "A".toList⟩
    ⟨2, "verify".toList, "B".toList⟩ 1 (by decide)

/-- C6: `stop()` on a supervisor with no live backend process is a no-op
that completes without failing (the function is total and leaves the state
untouched, performing no action); `stop()` is idempotent (a second call is
always a no-op); and with a live process it sends the quit command, waits
up to the grace period, and discards the handle. -/
theorem c6_stop_idempotent_noop :
    (∀ d : Dispatcher, isAlive d = false → stop d = (d, [])) ∧
    (∀ d : Dispatcher, stop (stop d).1 = ((stop d).1, [])) ∧
    (∀ d : Dispatcher, isAlive d = true →
      (stop d).2 = [.sendQuit, .waitGrace] ∧ (stop d).1.state = .Stopped) := by
  have hnoop : ∀ d : Dispatcher, isAlive d = false → stop d = (d, []) := by
    intro d h
    rw [stop, h]
    simp
  have halive : ∀ d : Dispatcher, isAlive d = true →
      (stop d).2 = [.sendQuit, .waitGrace] ∧ (stop d).1.state = .Stopped := by
    intro d h
    rw [stop, h]
    cases d.inFlight <;> simp
  refine ⟨hnoop, ?_, halive⟩
  intro d
  by_cases h : isAlive d = true
  · apply hnoop
    have hst : (stop d).1.state = .Stopped := (halive d h).2
    rw [isAlive, hst]
    simp
  · have hf : isAlive d = false := by simpa using h
    rw [hnoop d hf]
    exact hnoop d hf

/-- Witness for C6: stopping an already-stopped supervisor changes
nothing and performs no action. -/
theorem c6_stop_idempotent_noop_witness :
    stop ⟨.Stopped, [], none, [], [], []⟩
      = ((⟨.Stopped, [], none, [], [], []⟩ : Dispatcher), []) :=
  c6_stop_idempotent_noop.1 ⟨.Stopped, [], none, [], [], []⟩ rfl

/-- C7: round-trip — encoding a verify request for any document text `T`
and feeding back a synthetic success frame reporting zero errors delivers
a result with status Verified, `errorCount = 0` and `crashed = false`,
and exactly the encoded request line was written to the backend. -/
theorem c7_round_trip (c : Nat) (T : Str) (po : Nat) :
    (dispatchStep (submit idleDispatcher ⟨c, "verify".toList, T⟩).1).written
      = [encode "verify".toList T] ∧
    (frameArrives (dispatchStep (submit idleDispatcher ⟨c, "verify".toList, T⟩).1)
        ⟨true, po, 0⟩).delivered
      = [(c, ⟨.Verified, po, 0, false, none⟩)] := by
  have hbusy : dispatchStep (submit idleDispatcher ⟨c, "verify".toList, T⟩).1
      = ⟨.Busy, [], some ⟨c, "verify".toList, T⟩,
         [encode "verify".toList T], [], []⟩ := rfl
  rw [hbusy, frameArrives]
  refine ⟨rfl, ?_⟩
  simp [classify]

/-- C8: the version-probe promise of `verifyDafnyServer` rejects on a
spawn-level process error, on a stdin error, and on a non-zero exit code,
and the rejection is final for that start attempt (no later event changes
the settled outcome — there is no automatic retry inside the probe). -/
theorem c8_probe_rejections (m : Str) (code : Int) (es : List ProbeEvent)
    (hc : code ≠ 0) :
    (runProbe initProbe (.procErr m :: es)).settled = some (.rejectedErr m) ∧
    (runProbe initProbe (.stdinErr m :: es)).settled = some (.rejectedErr m) ∧
    (runProbe initProbe (.exited code :: es)).settled
      = some (.rejectedCode code) := by
  refine ⟨?_, ?_, ?_⟩ <;> rw [runProbe]
  · exact runProbe_settled es _ _ rfl
  · exact runProbe_settled es _ _ rfl
  · refine runProbe_settled es _ _ ?_
    rw [probeStep, if_pos hc]
    rfl

/-- Witness for C8: a spawn error, a stdin error and exit code 1 each
reject a fresh probe even with further events pending. -/
theorem c8_probe_rejections_witness :
    (runProbe initProbe
        (.procErr ("ENOENT".toList) :: [.dataArrives ("x".toList)])).settled
      = some (.rejectedErr ("ENOENT".toList)) ∧
    (runProbe initProbe
        (.stdinErr ("ENOENT".toList) :: [.dataArrives ("x".toList)])).settled
      = some (.rejectedErr ("ENOENT".toList)) ∧
    (runProbe initProbe
        (.exited 1 :: [.dataArrives ("x".toList)])).settled
      = some (.rejectedCode 1) :=
  c8_probe_rejections ("ENOENT".toList) 1 [.dataArrives ("x".toList)] (by decide)

/-- C3 counterexample: the buffer `"VERSION:\n"` contains the marker
followed by a newline, yet the extracted substring is empty, so — by JS
truthiness — the handshake neither resolves nor sends quit, contradicting
the claim that it resolves with the extracted string and quits once. -/
theorem c3_counterexample :
    parseVersion ("VERSION:\n".toList) = some [] ∧
    runProbe initProbe [.dataArrives ("VERSION:\n".toList)]
      = { outBuf := ("VERSION:\n".toList)
          settled := none
          quitsSent := 0 } := by
  constructor <;> rfl

/-- C3 (amended): when the buffer's first `VERSION:` marker is followed by
a newline and the text `v` strictly between them is non-empty, the probe
extracts exactly `v`, resolves the handshake with it, and sends the quit
command exactly once, immediately after extraction. -/
theorem c3_version_probe (a v rest : Str)
    (hfirst : ∀ k, k < a.length →
      startsWithStr VERSION_STRING
        ((a ++ (VERSION_STRING ++ (v ++ '\n' :: rest))).drop k) = false)
    (hv : ('\n' : Char) ∉ v) (hne : v ≠ []) :
    parseVersion (a ++ (VERSION_STRING ++ (v ++ '\n' :: rest))) = some v ∧
    runProbe initProbe [.dataArrives (a ++ (VERSION_STRING ++ (v ++ '\n' :: rest)))]
      = { outBuf := a ++ (VERSION_STRING ++ (v ++ '\n' :: rest))
          settled := some (.resolvedVersion v)
          quitsSent := 1 } := by
  have hp := parseVersion_extracts a v rest hfirst hv
  refine ⟨hp, ?_⟩
  simp only [runProbe, probeStep, initProbe, List.nil_append]
  rw [hp]
  simp [hne, settleWith]

/-- Witness for C3: the spec's own example
`VERSION:1.2.3\nSUCCESS-MARKER\n` yields version `1.2.3`, a resolved
handshake, and exactly one quit. -/
theorem c3_version_probe_witness :
    parseVersion ([] ++ (VERSION_STRING ++ ("1.2.3".toList ++ '\n' :: "SUCCESS-MARKER\n".toList)))
      = some ("1.2.3".toList) ∧
    runProbe initProbe
        [.dataArrives ([] ++ (VERSION_STRING ++ ("1.2.3".toList ++ '\n' :: "SUCCESS-MARKER\n".toList)))]
      = { outBuf := [] ++ (VERSION_STRING ++ ("1.2.3".toList ++ '\n' :: "SUCCESS-MARKER\n".toList))
          settled := some (.resolvedVersion ("1.2.3".toList))
          quitsSent := 1 } :=
  c3_version_probe [] ("1.2.3".toList) ("SUCCESS-MARKER\n".toList)
    (fun k hk => absurd hk (Nat.not_lt_zero k)) (by decide) (by decide)

/-- C9: when the buffer contains the marker but no newline at or after it,
`parseVersion` returns the buffer's prefix up to and including the marker
(JS `indexOf` returns `-1`, and `substring` clamps it to `0` and swaps its
arguments), a non-empty string, so the handshake resolves with that prefix
as the version and sends quit once, instead of waiting for more data. -/
theorem c9_version_no_newline (a rest : Str)
    (hfirst : ∀ k, k < a.length →
      startsWithStr VERSION_STRING ((a ++ (VERSION_STRING ++ rest)).drop k) = false)
    (hrest : ('\n' : Char) ∉ rest) :
    parseVersion (a ++ (VERSION_STRING ++ rest)) = some (a ++ VERSION_STRING) ∧
    a ++ VERSION_STRING ≠ [] ∧
    runProbe initProbe [.dataArrives (a ++ (VERSION_STRING ++ rest))]
      = { outBuf := a ++ (VERSION_STRING ++ rest)
          settled := some (.resolvedVersion (a ++ VERSION_STRING))
          quitsSent := 1 } := by
  have hp := parseVersion_no_newline a rest hfirst hrest
  have hne : a ++ VERSION_STRING ≠ [] := by simp [VERSION_STRING]
  refine ⟨hp, hne, ?_⟩
  simp only [runProbe, probeStep, initProbe, List.nil_append]
  rw [hp]
  simp [hne, settleWith]

/-- Witness for C9: the buffer `VERSION:1.2` (marker, no newline) resolves
the probe with `VERSION:` — the prefix up to and including the marker —
and sends quit once. -/
theorem c9_version_no_newline_witness :
    parseVersion ([] ++ (VERSION_STRING ++ "1.2".toList))
      = some ([] ++ VERSION_STRING) ∧
    [] ++ VERSION_STRING ≠ [] ∧
    runProbe initProbe [.dataArrives ([] ++ (VERSION_STRING ++ "1.2".toList))]
      = { outBuf := [] ++ (VERSION_STRING ++ "1.2".toList)
          settled := some (.resolvedVersion ([] ++ VERSION_STRING))
          quitsSent := 1 } :=
  c9_version_no_newline [] ("1.2".toList)
    (fun k hk => absurd hk (Nat.not_lt_zero k)) (by decide)

/-- C10 counterexample: when collecting the renamings throws
synchronously, `provideRenameEdits` does not resolve with an empty
`WorkspaceEdit` (nor with null) — the exception propagates, because the
`.catch` handler is never attached to a promise that was never created. -/
theorem c10_counterexample :
    provideRenameEdits (fun s => s) (Except.ok ("w".toList))
        (.throwsSync ("boom".toList))
      = .thrown ("boom".toList) ∧
    (JsOutcome.thrown ("boom".toList) : JsOutcome WorkspaceEdit)
      ≠ .resolvedVal (some ⟨none⟩) ∧
    (JsOutcome.thrown ("boom".toList) : JsOutcome WorkspaceEdit)
      ≠ .resolvedVal none := by
  refine ⟨rfl, by simp, by simp⟩

/-- C10 (amended): every asynchronous failure path of
`provideRenameEdits` yields a resolved value — a rejection of the
collect promise resolves with the empty `WorkspaceEdit {}`, the outer
rejection handler (if ever reached) resolves with null, and the returned
promise never rejects — while a synchronous throw (in the prologue or in
`getAllSymbols` itself) propagates as an exception instead. -/
theorem c10_rename_failure_paths :
    (∀ (renamer : List Str → List Str) (word e : Str),
        provideRenameEdits renamer (Except.ok word) (.rejects e)
          = .resolvedVal (some ⟨none⟩)) ∧
    (∀ (renamer : List Str → List Str) (word : Str) (syms : List Str),
        provideRenameEdits renamer (Except.ok word) (.ok syms)
          = .resolvedVal (some ⟨some (renamer syms)⟩)) ∧
    (∀ (renamer : List Str → List Str) (word e : Str),
        provideRenameEdits renamer (Except.ok word) (.throwsSync e)
          = .thrown e) ∧
    (∀ (renamer : List Str → List Str) (e : Str)
        (symCall : CallBehavior (List Str)),
        provideRenameEdits renamer (Except.error e) symCall = .thrown e) ∧
    (∀ (renamer : List Str → List Str) (wordCall : Except Str Str)
        (symCall : CallBehavior (List Str)) (e : Str),
        provideRenameEdits renamer wordCall symCall ≠ .rejectedWith e) := by
  refine ⟨fun _ _ _ => rfl, fun _ _ _ => rfl, fun _ _ _ => rfl,
    fun _ _ _ => rfl, ?_⟩
  intro renamer wordCall symCall e
  cases wordCall with
  | error e' => simp [provideRenameEdits, provideRenameInternal, jsThen2]
  | ok w =>
    cases symCall <;>
      simp [provideRenameEdits, provideRenameInternal, collectRenamings,
        jsCatch, jsThen2]

/-- Witness for C10: a rejecting symbol lookup resolves the rename with
the empty edit. -/
theorem c10_rename_failure_paths_witness :
    provideRenameEdits (fun s => s) (Except.ok ("w".toList))
        (.rejects ("e".toList))
      = .resolvedVal (some ⟨none⟩) :=
  c10_rename_failure_paths.1 (fun s => s) ("w".toList) ("e".toList)
